import Mathlib

/-!
Shallow embedding of the delivery-service backend (Go) in Lean 4.

Monetary amounts (Go `float64`) are modelled as rationals; Go
`math.Round` (half away from zero) is `goRound` below.  Timestamps are
modelled as integers, UUIDs as naturals with `0` standing for the zero
UUID (`uuid.Nil`).  Database rows are records; a transactional operation
is a pure function from the relevant rows to `Except`-style results, an
error meaning the transaction rolled back with no state change.
-/

namespace Delivery

/-- Go `math.Round`: round to nearest integer, half away from zero. -/
def goRound (x : ℚ) : ℤ :=
  if 0 ≤ x then ⌊x + 1 / 2⌋ else ⌈x - 1 / 2⌉

/-- `round2` from the promo service (and Postgres `ROUND(v, 2)`):
`math.Round(v*100)/100`. -/
def round2 (v : ℚ) : ℚ :=
  (goRound (v * 100) : ℚ) / 100

/-- A rational has at most two fractional digits. -/
def TwoDec (q : ℚ) : Prop := (q * 100).den = 1

/-! ### Pricing service (`PricingService.CalculateCost`) -/

structure PricingService where
  baseFare : ℚ
  perKm : ℚ
  minFare : ℚ
deriving DecidableEq, Repr

/-- `CalculateCost`: clamp negative distance to 0, `base + d*perKm`,
floor at `minFare`, round to two digits. -/
def PricingService.calculateCost (s : PricingService) (distanceKm : ℚ) : ℚ :=
  let d := if distanceKm < 0 then 0 else distanceKm
  let cost := s.baseFare + d * s.perKm
  let cost2 := if cost < s.minFare then s.minFare else cost
  round2 cost2

/-! ### Discount calculation (`calculateDiscount`) -/

inductive DiscountType
  | fixed
  | percent
  | freeDelivery
deriving DecidableEq, Repr

/-- `calculateDiscount` from the promo service, branch for branch. -/
def calculateDiscount (discountType : DiscountType) (amount baseTotal deliveryCost : ℚ) : ℚ :=
  match discountType with
  | .fixed =>
      if amount < 0 then 0
      else if amount > baseTotal then baseTotal
      else round2 amount
  | .percent =>
      if amount ≤ 0 then 0
      else
        let a := if amount > 100 then 100 else amount
        round2 (baseTotal * a / 100)
  | .freeDelivery =>
      if deliveryCost < 0 then 0 else round2 deliveryCost

/-! ### Order state machine (`isValidOrderStatusTransition`, `UpdateOrderStatus`) -/

inductive OrderStatus
  | created
  | accepted
  | preparing
  | ready
  | inDelivery
  | delivered
  | cancelled
deriving DecidableEq, Repr

/-- `isValidOrderStatusTransition` from `order_service.go`, branch for branch. -/
def isValidOrderStatusTransition (src dst : OrderStatus) : Bool :=
  if src = dst then true
  else
    match src with
    | .created => dst = .accepted || dst = .cancelled
    | .accepted => dst = .preparing || dst = .cancelled
    | .preparing => dst = .ready || dst = .cancelled
    | .ready => dst = .inDelivery || dst = .cancelled
    | .inDelivery => dst = .delivered || dst = .cancelled
    | .delivered => false
    | .cancelled => false

/-- The transition graph as the spec declares it (edges, without self-loops). -/
def DeclaredEdge (src dst : OrderStatus) : Prop :=
  (src = .created ∧ (dst = .accepted ∨ dst = .cancelled)) ∨
  (src = .accepted ∧ (dst = .preparing ∨ dst = .cancelled)) ∨
  (src = .preparing ∧ (dst = .ready ∨ dst = .cancelled)) ∨
  (src = .ready ∧ (dst = .inDelivery ∨ dst = .cancelled)) ∨
  (src = .inDelivery ∧ (dst = .delivered ∨ dst = .cancelled))

/-- Error kinds of the `apperror` package that the claims mention. -/
inductive ErrKind
  | validation
  | notFound
  | conflict
deriving DecidableEq, Repr

/-- The columns of an `orders` row that `UpdateOrderStatus` reads or writes.
UUIDs are naturals (`0` = `uuid.Nil`), times are integers. -/
structure OrderRow where
  status : OrderStatus
  courierId : Option ℕ
  deliveredAt : Option ℤ
  updatedAt : ℤ
deriving DecidableEq, Repr

structure UpdateOrderStatusRequest where
  status : OrderStatus
  courierId : Option ℕ
deriving DecidableEq, Repr

/-- `UpdateOrderStatus`, given the row the `FOR UPDATE` select fetched.
An error result models the rolled-back transaction: the stored row is
unchanged. -/
def updateOrderStatus (row : OrderRow) (req : UpdateOrderStatusRequest) (now : ℤ) :
    Except ErrKind OrderRow :=
  if ¬ isValidOrderStatusTransition row.status req.status then
    .error .conflict
  else if req.courierId = some 0 then
    .error .validation
  else
    let newCourierId := match req.courierId with
      | none => row.courierId
      | some c => some c
    let deliveredAt : Option ℤ :=
      if req.status = .delivered then
        if row.status = .delivered ∧ row.deliveredAt.isSome then row.deliveredAt
        else some now
      else none
    .ok { status := req.status, courierId := newCourierId,
          deliveredAt := deliveredAt, updatedAt := now }

/-- The row as `CreateOrder` inserts it (`status = created`, no courier,
no `delivered_at`). -/
def initialOrderRow (t : ℤ) : OrderRow :=
  { status := .created, courierId := none, deliveredAt := none, updatedAt := t }

/-- One lifecycle step: a successful update replaces the row, a failed
one (rolled back) leaves it unchanged. -/
def orderStep (row : OrderRow) (input : UpdateOrderStatusRequest × ℤ) : OrderRow :=
  match updateOrderStatus row input.1 input.2 with
  | .ok r => r
  | .error _ => row

/-- The row after a sequence of `UpdateOrderStatus` calls. -/
def runOrderUpdates (row : OrderRow) (l : List (UpdateOrderStatusRequest × ℤ)) : OrderRow :=
  l.foldl orderStep row

/-- All rows the order passes through, the initial one included. -/
def orderTrace (row : OrderRow) : List (UpdateOrderStatusRequest × ℤ) → List OrderRow
  | [] => [row]
  | input :: rest => row :: orderTrace (orderStep row input) rest

/-! ### Promo engine (`ApplyPromoWithTx`) -/

/-- The columns of a `promo_codes` row that `ApplyPromoWithTx` reads or
writes.  `expiresAt` is an optional timestamp. -/
structure PromoRow where
  discountType : DiscountType
  amount : ℚ
  maxUses : ℤ
  usedCount : ℤ
  expiresAt : Option ℤ
  active : Bool
deriving DecidableEq, Repr

inductive PromoConflictReason
  | inactive
  | expired
  | limitReached
deriving DecidableEq, Repr

inductive PromoApplyResult
  | ok (discount : ℚ) (row : PromoRow)
  | notFound
  | conflict (reason : PromoConflictReason)
deriving DecidableEq, Repr

/-- `ApplyPromoWithTx`, given the row the `FOR UPDATE` select fetched
(`none` = no row).  On success the returned row is the committed one
(`used_count` incremented); any failure rolls back, leaving the stored
row unchanged. -/
def applyPromoWithTx (row? : Option PromoRow) (itemsTotal deliveryCost : ℚ) (now : ℤ) :
    PromoApplyResult :=
  match row? with
  | none => .notFound
  | some row =>
    if row.active = false then .conflict .inactive
    else if (match row.expiresAt with | some t => decide (t < now) | none => false) then
      .conflict .expired
    else if row.maxUses > 0 ∧ row.usedCount ≥ row.maxUses then
      .conflict .limitReached
    else
      let totalBase := itemsTotal + deliveryCost
      let discount := calculateDiscount row.discountType row.amount totalBase deliveryCost
      .ok discount { row with usedCount := row.usedCount + 1 }

/-- The spec's consumability condition: active, not expired, and under
the usage cap (`MaxUses = 0` meaning unbounded). -/
def PromoConsumable (row : PromoRow) (now : ℤ) : Prop :=
  row.active = true ∧
  (∀ t, row.expiresAt = some t → ¬ t < now) ∧
  (row.maxUses = 0 ∨ row.usedCount < row.maxUses)

/-! ### Order creation amounts (`CreateOrder`) -/

structure CreateOrderItemRequest where
  name : String
  quantity : ℤ
  price : ℚ
deriving DecidableEq, Repr

/-- The items-total loop of `CreateOrder`:
`itemsTotal += item.Price * float64(item.Quantity)`. -/
def itemsTotal (items : List CreateOrderItemRequest) : ℚ :=
  items.foldl (fun acc it => acc + it.price * (it.quantity : ℚ)) 0

/-- The monetary fields `CreateOrder` inserts into the `orders` row. -/
structure CreateOrderAmounts where
  totalAmount : ℚ
  deliveryCost : ℚ
  discountAmount : ℚ
deriving DecidableEq, Repr

/-- The amount computation of `CreateOrder`.  `distanceKm` stands for
`calculateDistance(pickup, delivery)`; `promoReq = none` models a request
without a promo code, `promoReq = some row?` a request whose code looked
up row `row?`.  `none` is returned when the promo application fails and
the whole transaction rolls back. -/
def createOrderAmounts (pricing : PricingService) (items : List CreateOrderItemRequest)
    (distanceKm : ℚ) (promoReq : Option (Option PromoRow)) (now : ℤ) :
    Option CreateOrderAmounts :=
  let iTot := itemsTotal items
  let deliveryCost := pricing.calculateCost distanceKm
  let discount? : Option ℚ :=
    match promoReq with
    | none => some 0
    | some row? =>
      match applyPromoWithTx row? iTot deliveryCost now with
      | .ok d _ => some d
      | _ => none
  match discount? with
  | none => none
  | some discountAmount =>
    let totalAmount := iTot + deliveryCost - discountAmount
    let totalAmount := if totalAmount < 0 then 0 else totalAmount
    some { totalAmount := totalAmount, deliveryCost := deliveryCost,
           discountAmount := discountAmount }

/-! ### Courier service (`UpdateCourierStatus`, `AssignOrderToCourier`) -/

inductive CourierStatus
  | offline
  | available
  | busy
deriving DecidableEq, Repr

/-- The columns of a `couriers` row that the modelled operations touch. -/
structure CourierRow where
  status : CourierStatus
  currentLat : Option ℚ
  currentLon : Option ℚ
  rating : ℚ
  updatedAt : ℤ
  lastSeenAt : Option ℤ
deriving DecidableEq, Repr

structure UpdateCourierStatusRequest where
  status : CourierStatus
  currentLat : Option ℚ
  currentLon : Option ℚ
deriving DecidableEq, Repr

/-- `UpdateCourierStatus`: one unconditional UPDATE writing status and
both coordinate columns from the request (`NULL` when absent), stamping
`updated_at` and `last_seen_at`.  `none` input = no row with that id. -/
def updateCourierStatus (row? : Option CourierRow) (req : UpdateCourierStatusRequest)
    (now : ℤ) : Except ErrKind CourierRow :=
  match row? with
  | none => .error .notFound
  | some row =>
    .ok { row with
          status := req.status
          currentLat := req.currentLat
          currentLon := req.currentLon
          updatedAt := now
          lastSeenAt := some now }

/-- The known-location filter of `AutoAssignCourier`
(`c.CurrentLat != nil && c.CurrentLon != nil`). -/
def hasKnownLocation (c : CourierRow) : Bool :=
  c.currentLat.isSome && c.currentLon.isSome

def couriersWithLocation (l : List CourierRow) : List CourierRow :=
  l.filter hasKnownLocation

/-- The two rows `AssignOrderToCourier` touches, fetched by id. -/
structure AssignState where
  order : Option OrderRow
  courier : Option CourierRow
deriving DecidableEq, Repr

inductive AssignError
  | courierNotFound
  | courierNotAvailable
  | orderNotFoundOrAssigned
  | courierUpdateLost
deriving DecidableEq, Repr

/-- Which `ErrKind` each `AssignOrderToCourier` failure carries. -/
def AssignError.kind : AssignError → ErrKind
  | .courierNotFound => .notFound
  | .courierNotAvailable => .conflict
  | .orderNotFoundOrAssigned => .conflict
  | .courierUpdateLost => .conflict

/-- `AssignOrderToCourier` as one atomic transaction over the two rows:
lock and check the courier, conditional UPDATE of the order
(`WHERE id = ? AND status = 'created'`), conditional UPDATE of the
courier (`WHERE id = ? AND status = 'available'`), commit.  A zero-row
conditional UPDATE fails the transaction; an error result models the
rollback, leaving both rows unchanged. -/
def assignOrderToCourier (st : AssignState) (courierId : ℕ) (now : ℤ) :
    Except AssignError AssignState :=
  match st.courier with
  | none => .error .courierNotFound
  | some c =>
    if c.status ≠ .available then .error .courierNotAvailable
    else
      -- UPDATE orders ... WHERE id = $orderId AND status = 'created'
      match st.order with
      | none => .error .orderNotFoundOrAssigned
      | some o =>
        if o.status ≠ .created then .error .orderNotFoundOrAssigned
        else
          let o' : OrderRow :=
            { o with courierId := some courierId, status := .accepted, updatedAt := now }
          -- UPDATE couriers ... WHERE id = $courierId AND status = 'available'
          if c.status ≠ .available then .error .courierUpdateLost
          else
            .ok { order := some o',
                  courier := some { c with status := .busy, updatedAt := now } }

/-! ### Assignment scoring (`calculateCourierScore`, best-pick loop) -/

structure AssignmentWeights where
  distance : ℚ
  rating : ℚ
  workload : ℚ
deriving DecidableEq, Repr

/-- `DefaultWeights()`: 0.40 / 0.30 / 0.30. -/
def DefaultWeights : AssignmentWeights :=
  { distance := 40 / 100, rating := 30 / 100, workload := 30 / 100 }

/-- A candidate courier as `calculateCourierScore` sees it:
`distanceKm` is the already-computed haversine distance to the delivery
point, `activeOrdersQuery` the result of the active-orders COUNT
(`none` = the query failed). -/
structure Candidate where
  id : ℕ
  name : String
  rating : ℚ
  distanceKm : ℚ
  activeOrdersQuery : Option ℕ
deriving DecidableEq, Repr

/-- `getActiveCourierOrders`: the COUNT result, or 0 when the query
failed (logged, never fatal). -/
def getActiveCourierOrders (q : Option ℕ) : ℕ := q.getD 0

structure CourierScore where
  courierId : ℕ
  distanceScore : ℚ
  ratingScore : ℚ
  workloadScore : ℚ
  totalScore : ℚ
deriving DecidableEq, Repr

/-- `calculateCourierScore`, branch for branch. -/
def calculateCourierScore (c : Candidate) (weights : AssignmentWeights) : CourierScore :=
  let distance := c.distanceKm
  let distanceScore : ℚ := if distance > 50 then 0 else 1 - distance / 50
  let ratingScore : ℚ := c.rating / 5
  let activeOrders := getActiveCourierOrders c.activeOrdersQuery
  let workloadScore : ℚ := if (activeOrders : ℚ) ≥ 5 then 0 else 1 - (activeOrders : ℚ) / 5
  { courierId := c.id, distanceScore := distanceScore, ratingScore := ratingScore,
    workloadScore := workloadScore,
    totalScore := distanceScore * weights.distance + ratingScore * weights.rating +
      workloadScore * weights.workload }

/-- The best-pick loop of `AutoAssignCourier`: start from the first
score, replace only on a strictly greater total. -/
def pickBest (best : CourierScore) : List CourierScore → CourierScore
  | [] => best
  | s :: rest => pickBest (if s.totalScore > best.totalScore then s else best) rest

/-- The score-and-pick stage of `AutoAssignCourier` on the candidates
that survived the known-location filter. -/
def autoAssignSelect (candidates : List Candidate) : Option CourierScore :=
  match candidates.map (calculateCourierScore · DefaultWeights) with
  | [] => none
  | s :: rest => some (pickBest s rest)

/-- Specification-side selector: the first list element whose total
score is greatest. -/
def firstMaxScore (l : List CourierScore) : Option CourierScore :=
  l.find? (fun s => l.all (fun t => t.totalScore ≤ s.totalScore))

/-! ### Rate limiter (`Allow`) -/

structure RateLimiter where
  enabled : Bool
  limit : ℤ
  window : ℤ
deriving DecidableEq, Repr

/-- What one `Allow` call returns and does to the store. -/
structure AllowOutcome where
  allowed : Bool
  remaining : ℤ
  resetAt : ℤ
  countAfter : ℤ
  expireCalled : Bool
deriving DecidableEq, Repr

/-- `RateLimiter.Allow`: `count` is the stored counter before the call
(`INCR` returns `count + 1`), `ttlRead` the TTL query result (`none` =
it failed; the window is then assumed).  An `EXPIRE` failure is logged
only, so it does not appear in the outcome beyond `expireCalled`. -/
def RateLimiter.Allow (r : RateLimiter) (count : ℤ) (now : ℤ) (ttlRead : Option ℤ) :
    AllowOutcome :=
  if r.enabled = false then
    { allowed := true, remaining := r.limit, resetAt := now + r.window,
      countAfter := count, expireCalled := false }
  else
    let c := count + 1
    let expireCalled := decide (c = 1)
    let ttl := match ttlRead with
      | some t => t
      | none => r.window
    let remaining := r.limit - c
    let remaining := if remaining < 0 then 0 else remaining
    { allowed := decide (c ≤ r.limit), remaining := remaining, resetAt := now + ttl,
      countAfter := c, expireCalled := expireCalled }

/-! ### Review aggregation (`update_courier_rating_on_review` trigger) -/

/-- The denormalized aggregate columns of a `couriers` row. -/
structure CourierAgg where
  rating : ℚ
  totalReviews : ℤ
deriving DecidableEq, Repr

/-- The `update_courier_rating_on_review` trigger:
`new_total = total_reviews + 1`,
`new_rating = ROUND((rating * total_reviews + NEW.rating) / new_total, 2)`.
The `DECIMAL(5,2)` cast of the numerator is lossless because `rating`
has two fractional digits. -/
def updateCourierRatingOnReview (c : CourierAgg) (newRating : ℤ) : CourierAgg :=
  let newTotal := c.totalReviews + 1
  let newR := round2 ((c.rating * (c.totalReviews : ℚ) + (newRating : ℚ)) / (newTotal : ℚ))
  { rating := newR, totalReviews := newTotal }

/-- The aggregate after a sequence of review insertions. -/
def applyReviews (c : CourierAgg) (l : List ℤ) : CourierAgg :=
  l.foldl updateCourierRatingOnReview c

/-- A courier as `CreateCourier` inserts it: rating 0, no reviews. -/
def initialCourierAgg : CourierAgg := { rating := 0, totalReviews := 0 }

/-! ## Helper lemmas -/

theorem twoDec_iff (q : ℚ) : TwoDec q ↔ ∃ n : ℤ, q = (n : ℚ) / 100 := by
  constructor
  · intro h
    refine ⟨(q * 100).num, ?_⟩
    have h100 : ((q * 100).num : ℚ) = q * 100 := by
      conv_rhs => rw [← Rat.num_div_den (q * 100)]
      rw [h]
      simp
    rw [h100]
    ring
  · rintro ⟨n, rfl⟩
    have : (n : ℚ) / 100 * 100 = (n : ℚ) := by ring
    rw [TwoDec, this]
    exact Rat.den_intCast n

theorem twoDec_round2 (v : ℚ) : TwoDec (round2 v) := by
  rw [twoDec_iff]
  exact ⟨goRound (v * 100), rfl⟩

theorem twoDec_add {a b : ℚ} (ha : TwoDec a) (hb : TwoDec b) : TwoDec (a + b) := by
  rw [twoDec_iff] at *
  obtain ⟨m, rfl⟩ := ha
  obtain ⟨n, rfl⟩ := hb
  exact ⟨m + n, by push_cast; ring⟩

theorem twoDec_neg {a : ℚ} (ha : TwoDec a) : TwoDec (-a) := by
  rw [twoDec_iff] at *
  obtain ⟨m, rfl⟩ := ha
  exact ⟨-m, by push_cast; ring⟩

theorem twoDec_sub {a b : ℚ} (ha : TwoDec a) (hb : TwoDec b) : TwoDec (a - b) := by
  rw [sub_eq_add_neg]
  exact twoDec_add ha (twoDec_neg hb)

theorem twoDec_zero : TwoDec 0 := by
  rw [twoDec_iff]
  exact ⟨0, by norm_num⟩

/-- Evaluate `goRound` on an integer. -/
theorem goRound_intCast (n : ℤ) : goRound (n : ℚ) = n := by
  unfold goRound
  rcases le_or_lt 0 (n : ℚ) with h | h
  · rw [if_pos h, Int.floor_eq_iff]
    constructor <;> [linarith; push_cast] <;> linarith
  · rw [if_neg (not_le.mpr h), Int.ceil_eq_iff]
    constructor <;> push_cast <;> linarith

/-- `round2` is the identity on two-decimal rationals. -/
theorem round2_twoDecInt (m : ℤ) : round2 ((m : ℚ) / 100) = (m : ℚ) / 100 := by
  unfold round2
  have h : ((m : ℚ) / 100) * 100 = (m : ℚ) := by ring
  rw [h, goRound_intCast]

/-- Evaluate `round2` at a nonnegative argument from floor bounds. -/
theorem round2_nonneg_eq {v : ℚ} {n : ℤ} (hv : 0 ≤ v)
    (h1 : (n : ℚ) ≤ v * 100 + 1 / 2) (h2 : v * 100 + 1 / 2 < (n : ℚ) + 1) :
    round2 v = (n : ℚ) / 100 := by
  unfold round2 goRound
  rw [if_pos (by positivity)]
  congr 1
  push_cast
  congr 1
  rw [Int.floor_eq_iff]
  exact ⟨h1, by push_cast; linarith⟩

theorem twoDec_intMul {a : ℚ} (k : ℤ) (ha : TwoDec a) : TwoDec (a * k) := by
  rw [twoDec_iff] at *
  obtain ⟨m, rfl⟩ := ha
  exact ⟨m * k, by push_cast; ring⟩

theorem twoDec_max {a b : ℚ} (ha : TwoDec a) (hb : TwoDec b) : TwoDec (max a b) := by
  rcases max_choice a b with h | h <;> rw [h] <;> assumption

/-! ## Claim C2: order status transition predicate and conflict on rejection -/

/-- C2: `isValidOrderStatusTransition` accepts exactly the self-loops and the
declared edges (created→{accepted,cancelled}, accepted→{preparing,cancelled},
preparing→{ready,cancelled}, ready→{in_delivery,cancelled},
in_delivery→{delivered,cancelled}); `delivered` and `cancelled` have no other
outgoing transition; and `UpdateOrderStatus` rejects every invalid pair with a
`conflict` error, leaving the order row unchanged (the transaction rolls
back). -/
theorem order_status_transition_spec :
    (∀ src dst : OrderStatus,
      isValidOrderStatusTransition src dst = true ↔ (src = dst ∨ DeclaredEdge src dst)) ∧
    (∀ dst, dst ≠ OrderStatus.delivered →
      isValidOrderStatusTransition .delivered dst = false) ∧
    (∀ dst, dst ≠ OrderStatus.cancelled →
      isValidOrderStatusTransition .cancelled dst = false) ∧
    (∀ (row : OrderRow) (req : UpdateOrderStatusRequest) (now : ℤ),
      isValidOrderStatusTransition row.status req.status = false →
      updateOrderStatus row req now = .error .conflict) := by
  refine ⟨?_, ?_, ?_, ?_⟩
  · intro src dst
    cases src <;> cases dst <;> simp [isValidOrderStatusTransition, DeclaredEdge]
  · intro dst h
    cases dst <;> simp_all [isValidOrderStatusTransition]
  · intro dst h
    cases dst <;> simp_all [isValidOrderStatusTransition]
  · intro row req now h
    unfold updateOrderStatus
    rw [if_pos]
    simp [h]

theorem order_status_transition_spec_witness :
    ((OrderStatus.created = OrderStatus.delivered ∨
        DeclaredEdge .created .delivered) → False) ∧
    updateOrderStatus (initialOrderRow 0) { status := .delivered, courierId := none } 5 =
      .error .conflict := by
  constructor
  · intro h
    have h2 := (order_status_transition_spec.1 .created .delivered).mpr h
    simp [isValidOrderStatusTransition] at h2
  · exact order_status_transition_spec.2.2.2 (initialOrderRow 0)
      { status := .delivered, courierId := none } 5 (by decide)

/-! ## Claim C5: discount formula -/

/-- C5 counterexample: the claim says the computed discount is
`round2(clamp(Amount, 0, items_total+delivery_cost))` for the `fixed` type,
rounded in every case.  For `Amount = 2`, `items_total+delivery_cost = 1.005`
the code returns the unrounded `1.005` while the claimed value is
`round2(1.005) = 1.01`. -/
theorem calculateDiscount_fixed_unrounded :
    calculateDiscount .fixed 2 (201 / 200) 0 = 201 / 200 ∧
    round2 (min (max (2 : ℚ) 0) (201 / 200)) = 101 / 100 ∧
    (201 / 200 : ℚ) ≠ 101 / 100 := by
  refine ⟨by norm_num [calculateDiscount], ?_, by norm_num⟩
  have h : min (max (2 : ℚ) 0) (201 / 200) = 201 / 200 := by
    rw [max_eq_left (by norm_num), min_eq_right (by norm_num)]
  rw [h]
  norm_num [round2, goRound]

/-- C5 (amended): for `percent` the discount is
`round2(clamp(Amount,0,100) × (items_total+delivery_cost) / 100)` and for
`free_delivery` it is `round2(max(0, delivery_cost))`, both rounded; for
`fixed` the clamped amount is rounded except when `Amount` exceeds
`items_total+delivery_cost`, in which case the unrounded
`items_total+delivery_cost` itself is returned. -/
theorem calculateDiscount_spec (amount baseTotal deliveryCost : ℚ)
    (hbase : 0 ≤ baseTotal) :
    calculateDiscount .fixed amount baseTotal deliveryCost =
      (if baseTotal < amount then baseTotal
       else round2 (min (max amount 0) baseTotal)) ∧
    calculateDiscount .percent amount baseTotal deliveryCost =
      round2 (min (max amount 0) 100 * baseTotal / 100) ∧
    calculateDiscount .freeDelivery amount baseTotal deliveryCost =
      round2 (max deliveryCost 0) := by
  refine ⟨?_, ?_, ?_⟩
  · show (if amount < 0 then 0
      else if amount > baseTotal then baseTotal else round2 amount) = _
    rcases lt_or_le amount 0 with h0 | h0
    · rw [if_pos h0, if_neg (not_lt.mpr (le_trans (le_of_lt h0) hbase)),
        max_eq_right (le_of_lt h0), min_eq_left hbase]
      unfold round2 goRound
      norm_num
    · rw [if_neg (not_lt.mpr h0), max_eq_left h0]
      rcases lt_or_le baseTotal amount with h1 | h1
      · rw [if_pos h1, if_pos h1]
      · rw [if_neg (not_lt.mpr h1), if_neg (not_lt.mpr h1), min_eq_left h1]
  · show (if amount ≤ 0 then 0
      else round2 (baseTotal * (if amount > 100 then 100 else amount) / 100)) = _
    rcases le_or_lt amount 0 with h0 | h0
    · rw [if_pos h0, max_eq_right h0,
        min_eq_left (by norm_num : (0 : ℚ) ≤ 100)]
      have hz : (0 : ℚ) * baseTotal / 100 = 0 := by ring
      rw [hz]
      unfold round2 goRound
      norm_num
    · rw [if_neg (not_le.mpr h0), max_eq_left (le_of_lt h0)]
      rcases lt_or_le (100 : ℚ) amount with h1 | h1
      · rw [if_pos h1, min_eq_right (le_of_lt h1)]
        ring_nf
      · rw [if_neg (not_lt.mpr h1), min_eq_left h1]
        ring_nf
  · show (if deliveryCost < 0 then 0 else round2 deliveryCost) = _
    rcases lt_or_le deliveryCost 0 with h0 | h0
    · rw [if_pos h0, max_eq_right (le_of_lt h0)]
      unfold round2 goRound
      norm_num
    · rw [if_neg (not_lt.mpr h0), max_eq_left h0]

theorem calculateDiscount_spec_witness :
    (0 : ℚ) ≤ 10 ∧
    calculateDiscount .percent 50 10 2 = round2 (min (max (50 : ℚ) 0) 100 * 10 / 100) ∧
    calculateDiscount .freeDelivery 50 10 2 = round2 (max (2 : ℚ) 0) :=
  ⟨by norm_num, (calculateDiscount_spec 50 10 2 (by norm_num)).2.1,
    (calculateDiscount_spec 50 10 2 (by norm_num)).2.2⟩

/-! ## Claim C3: order totals -/

theorem twoDec_itemsTotal_fold (items : List CreateOrderItemRequest) :
    ∀ acc : ℚ, (∀ it ∈ items, TwoDec it.price) → TwoDec acc →
      TwoDec (items.foldl (fun acc it => acc + it.price * (it.quantity : ℚ)) acc) := by
  induction items with
  | nil => intro acc _ hacc; exact hacc
  | cons it rest ih =>
    intro acc h hacc
    rw [List.foldl_cons]
    exact ih _ (fun x hx => h x (by simp [hx]))
      (twoDec_add hacc (twoDec_intMul it.quantity (h it (by simp))))

theorem twoDec_itemsTotal {items : List CreateOrderItemRequest}
    (h : ∀ it ∈ items, TwoDec it.price) : TwoDec (itemsTotal items) :=
  twoDec_itemsTotal_fold items 0 h twoDec_zero

theorem twoDec_calculateDiscount (dt : DiscountType) (amount baseTotal deliveryCost : ℚ)
    (hb : TwoDec baseTotal) : TwoDec (calculateDiscount dt amount baseTotal deliveryCost) := by
  cases dt <;> unfold calculateDiscount <;> dsimp only
  · split
    · exact twoDec_zero
    · split
      · exact hb
      · exact twoDec_round2 _
  · split
    · exact twoDec_zero
    · exact twoDec_round2 _
  · split
    · exact twoDec_zero
    · exact twoDec_round2 _

theorem twoDec_calculateCost (s : PricingService) (d : ℚ) : TwoDec (s.calculateCost d) :=
  twoDec_round2 _

theorem applyPromo_ok_inv {row? : Option PromoRow} {iTot dc : ℚ} {now : ℤ}
    {d : ℚ} {row' : PromoRow}
    (h : applyPromoWithTx row? iTot dc now = .ok d row') :
    ∃ row, row? = some row ∧
      d = calculateDiscount row.discountType row.amount (iTot + dc) dc ∧
      row' = { row with usedCount := row.usedCount + 1 } := by
  cases row? with
  | none => exact absurd h (by simp [applyPromoWithTx])
  | some row =>
    refine ⟨row, rfl, ?_⟩
    unfold applyPromoWithTx at h
    dsimp only at h
    split_ifs at h with h1 h2 h3
    obtain ⟨hd, hr⟩ := PromoApplyResult.ok.inj h
    exact ⟨hd.symm, hr.symm⟩

/-- C3 counterexample: the claim says the persisted `TotalAmount` is rounded
to two fractional digits.  `CreateOrder` never rounds it: an accepted order
with one item priced `0.005` (validation only requires price ≥ 0) commits
`TotalAmount = 0.005`, which has more than two fractional digits. -/
theorem createOrder_total_unrounded :
    createOrderAmounts { baseFare := 0, perKm := 0, minFare := 0 }
        [{ name := "A", quantity := 1, price := 1 / 200 }] 0 none 0 =
      some { totalAmount := 1 / 200, deliveryCost := 0, discountAmount := 0 } ∧
    ¬ TwoDec ((1 : ℚ) / 200) := by
  constructor
  · norm_num [createOrderAmounts, itemsTotal, PricingService.calculateCost, round2, goRound]
  · rw [twoDec_iff]
    rintro ⟨n, hn⟩
    have h2 : (n : ℚ) * 2 = 1 := by
      field_simp at hn
      linarith
    have h3 : n * 2 = 1 := by exact_mod_cast h2
    omega

/-- C3 (amended): for every successfully created order,
`TotalAmount = max(0, Σ(item.price × item.quantity) + DeliveryCost −
DiscountAmount)` exactly as computed, and `DeliveryCost` is rounded to two
fractional digits; `TotalAmount` is not itself rounded — it has two
fractional digits whenever every item price does. -/
theorem createOrder_total_amount (pricing : PricingService)
    (items : List CreateOrderItemRequest) (distanceKm : ℚ)
    (promoReq : Option (Option PromoRow)) (now : ℤ) (amounts : CreateOrderAmounts)
    (h : createOrderAmounts pricing items distanceKm promoReq now = some amounts) :
    amounts.totalAmount =
      max 0 (itemsTotal items + amounts.deliveryCost - amounts.discountAmount) ∧
    amounts.deliveryCost = pricing.calculateCost distanceKm ∧
    TwoDec amounts.deliveryCost ∧
    ((∀ it ∈ items, TwoDec it.price) → TwoDec amounts.totalAmount) := by
  have main : ∃ disc : ℚ,
      amounts = { totalAmount := if itemsTotal items + pricing.calculateCost distanceKm -
                      disc < 0 then 0
                    else itemsTotal items + pricing.calculateCost distanceKm - disc,
                  deliveryCost := pricing.calculateCost distanceKm,
                  discountAmount := disc } ∧
      (disc = 0 ∨ ∃ row : PromoRow,
        disc = calculateDiscount row.discountType row.amount
          (itemsTotal items + pricing.calculateCost distanceKm)
          (pricing.calculateCost distanceKm)) := by
    unfold createOrderAmounts at h
    cases promoReq with
    | none =>
      refine ⟨0, ?_, Or.inl rfl⟩
      dsimp only at h
      exact (Option.some.inj h).symm
    | some row? =>
      dsimp only at h
      cases happly : applyPromoWithTx row? (itemsTotal items)
          (pricing.calculateCost distanceKm) now with
      | ok d r =>
        rw [happly] at h
        dsimp only at h
        obtain ⟨row, _, hd, _⟩ := applyPromo_ok_inv happly
        exact ⟨d, (Option.some.inj h).symm, Or.inr ⟨row, hd⟩⟩
      | notFound =>
        rw [happly] at h
        exact absurd h (by simp)
      | conflict r =>
        rw [happly] at h
        exact absurd h (by simp)
  obtain ⟨disc, hamounts, hdisc⟩ := main
  subst hamounts
  dsimp only
  have hmax : (if itemsTotal items + pricing.calculateCost distanceKm - disc < 0 then 0
      else itemsTotal items + pricing.calculateCost distanceKm - disc) =
      max 0 (itemsTotal items + pricing.calculateCost distanceKm - disc) := by
    rcases lt_or_le (itemsTotal items + pricing.calculateCost distanceKm - disc) 0 with h0 | h0
    · rw [if_pos h0, max_eq_left (le_of_lt h0)]
    · rw [if_neg (not_lt.mpr h0), max_eq_right h0]
  refine ⟨hmax, rfl, twoDec_calculateCost pricing distanceKm, ?_⟩
  intro hprices
  have hTot : TwoDec (itemsTotal items) := twoDec_itemsTotal hprices
  have hdc : TwoDec (pricing.calculateCost distanceKm) := twoDec_calculateCost _ _
  have hdisc2 : TwoDec disc := by
    rcases hdisc with rfl | ⟨row, rfl⟩
    · exact twoDec_zero
    · exact twoDec_calculateDiscount _ _ _ _ (twoDec_add hTot hdc)
  rw [hmax]
  exact twoDec_max twoDec_zero (twoDec_sub (twoDec_add hTot hdc) hdisc2)

theorem createOrder_total_amount_witness :
    createOrderAmounts { baseFare := 0, perKm := 0, minFare := 0 }
        [{ name := "A", quantity := 2, price := 3 }] 0 none 0 =
      some { totalAmount := 6, deliveryCost := 0, discountAmount := 0 } ∧
    (6 : ℚ) = max 0 (itemsTotal [{ name := "A", quantity := 2, price := 3 }] + 0 - 0) := by
  have h : createOrderAmounts { baseFare := 0, perKm := 0, minFare := 0 }
      [{ name := "A", quantity := 2, price := 3 }] 0 none 0 =
      some { totalAmount := 6, deliveryCost := 0, discountAmount := 0 } := by
    norm_num [createOrderAmounts, itemsTotal, PricingService.calculateCost, round2, goRound]
  refine ⟨h, ?_⟩
  have h2 := (createOrder_total_amount { baseFare := 0, perKm := 0, minFare := 0 }
    [{ name := "A", quantity := 2, price := 3 }] 0 none 0
    { totalAmount := 6, deliveryCost := 0, discountAmount := 0 } h).1
  simpa [itemsTotal] using h2

/-! ## Claim C4: promo application -/

theorem promoExpiredBool_iff (row : PromoRow) (now : ℤ) :
    ((match row.expiresAt with
      | some t => decide (t < now)
      | none => false) = true) ↔ ∃ t, row.expiresAt = some t ∧ t < now := by
  cases h : row.expiresAt <;> simp

/-- C4: `ApplyPromoWithTx` succeeds (returning a discount and a row whose
`used_count` grew by exactly one) iff the row exists and is consumable
(active ∧ not expired ∧ (MaxUses = 0 ∨ UsedCount < MaxUses)); a row that is
not consumable yields a `conflict` whose reason distinguishes inactive,
expired and limit_reached; a missing row yields `not_found`; on failure the
stored row is untouched (the error result models the rollback), and a
successful application never pushes `used_count` past `max_uses` when
`max_uses > 0`. -/
theorem applyPromo_spec (row : PromoRow) (iTot dc : ℚ) (now : ℤ)
    (hmax : 0 ≤ row.maxUses) :
    ((∃ d row', applyPromoWithTx (some row) iTot dc now = .ok d row') ↔
      PromoConsumable row now) ∧
    (∀ d row', applyPromoWithTx (some row) iTot dc now = .ok d row' →
      row' = { row with usedCount := row.usedCount + 1 } ∧
      (0 < row.maxUses → row'.usedCount ≤ row.maxUses)) ∧
    (row.active = false →
      applyPromoWithTx (some row) iTot dc now = .conflict .inactive) ∧
    (row.active = true → (∃ t, row.expiresAt = some t ∧ t < now) →
      applyPromoWithTx (some row) iTot dc now = .conflict .expired) ∧
    (row.active = true → (∀ t, row.expiresAt = some t → ¬ t < now) →
      0 < row.maxUses → row.maxUses ≤ row.usedCount →
      applyPromoWithTx (some row) iTot dc now = .conflict .limitReached) ∧
    (¬ PromoConsumable row now →
      ∃ r, applyPromoWithTx (some row) iTot dc now = .conflict r) ∧
    applyPromoWithTx none iTot dc now = .notFound := by
  refine ⟨⟨?_, ?_⟩, ?_, ?_, ?_, ?_, ?_, rfl⟩
  · rintro ⟨d, row', hok⟩
    unfold applyPromoWithTx at hok
    dsimp only at hok
    split_ifs at hok with h1 h2 h3
    refine ⟨by simpa using h1, ?_, ?_⟩
    · intro t ht hlt
      exact h2 ((promoExpiredBool_iff row now).mpr ⟨t, ht, hlt⟩)
    · rcases lt_or_eq_of_le hmax with hpos | hzero
      · right
        by_contra hge
        exact h3 ⟨hpos, le_of_not_lt hge⟩
      · left
        exact hzero.symm
  · rintro ⟨hactive, hnexp, hcap⟩
    refine ⟨calculateDiscount row.discountType row.amount (iTot + dc) dc,
      { row with usedCount := row.usedCount + 1 }, ?_⟩
    unfold applyPromoWithTx
    dsimp only
    split_ifs with h1 h2 h3
    · exact absurd h1 (by simp [hactive])
    · obtain ⟨t, ht, hlt⟩ := (promoExpiredBool_iff row now).mp h2
      exact absurd hlt (hnexp t ht)
    · rcases hcap with hzero | hlt
      · omega
      · omega
    · rfl
  · intro d row' hok
    obtain ⟨row2, hrow2, hd, hr⟩ := applyPromo_ok_inv hok
    have hrow2e : row2 = row := (Option.some.inj hrow2).symm
    subst hrow2e
    unfold applyPromoWithTx at hok
    dsimp only at hok
    split_ifs at hok with h1 h2 h3
    subst hr
    refine ⟨rfl, fun hpos => ?_⟩
    simp only
    omega
  · intro h1
    unfold applyPromoWithTx
    dsimp only
    rw [if_pos h1]
  · intro hactive hexp
    unfold applyPromoWithTx
    dsimp only
    rw [if_neg (by simp [hactive]), if_pos ((promoExpiredBool_iff row now).mpr hexp)]
  · intro hactive hnexp hpos hge
    unfold applyPromoWithTx
    dsimp only
    rw [if_neg (by simp [hactive]),
      if_neg (fun h => by
        obtain ⟨t, ht, hlt⟩ := (promoExpiredBool_iff row now).mp h
        exact hnexp t ht hlt),
      if_pos ⟨hpos, hge⟩]
  · intro hnc
    unfold applyPromoWithTx
    dsimp only
    split_ifs with h1 h2 h3
    · exact ⟨.inactive, rfl⟩
    · exact ⟨.expired, rfl⟩
    · exact ⟨.limitReached, rfl⟩
    · exfalso
      apply hnc
      refine ⟨by simpa using h1, ?_, ?_⟩
      · intro t ht hlt
        exact h2 ((promoExpiredBool_iff row now).mpr ⟨t, ht, hlt⟩)
      · rcases lt_or_eq_of_le hmax with hpos | hzero
        · right
          by_contra hge
          exact h3 ⟨hpos, le_of_not_lt hge⟩
        · left
          exact hzero.symm

theorem applyPromo_spec_witness :
    applyPromoWithTx
      (some { discountType := .fixed, amount := 5, maxUses := 3, usedCount := 1,
              expiresAt := none, active := false }) 10 2 0 = .conflict .inactive :=
  (applyPromo_spec
    { discountType := .fixed, amount := 5, maxUses := 3, usedCount := 1,
      expiresAt := none, active := false } 10 2 0 (by decide)).2.2.1 rfl

/-! ## Claim C1: atomic assignment -/

/-- C1: `AssignOrderToCourier` commits the full assignment (order gets the
courier id and status `accepted`, courier becomes `busy`) exactly when the
courier row exists with status `available` and the order row exists with
status `created`; a missing courier is `not_found`, a non-available courier
is `conflict`, and a zero-row conditional order update (missing order or
status ≠ `created`) is `conflict`; every error result models the rolled-back
transaction, so no partial assignment is observable. -/
theorem assignOrderToCourier_spec (st : AssignState) (cid : ℕ) (now : ℤ) :
    ((∃ st', assignOrderToCourier st cid now = .ok st') ↔
      ((∃ c, st.courier = some c ∧ c.status = .available) ∧
       (∃ o, st.order = some o ∧ o.status = .created))) ∧
    (∀ c o, st.courier = some c → c.status = .available →
      st.order = some o → o.status = .created →
      assignOrderToCourier st cid now =
        .ok { order := some { o with
                              courierId := some cid
                              status := .accepted
                              updatedAt := now },
              courier := some { c with status := .busy, updatedAt := now } }) ∧
    (st.courier = none →
      assignOrderToCourier st cid now = .error .courierNotFound ∧
      AssignError.courierNotFound.kind = .notFound) ∧
    (∀ c, st.courier = some c → c.status ≠ .available →
      assignOrderToCourier st cid now = .error .courierNotAvailable ∧
      AssignError.courierNotAvailable.kind = .conflict) ∧
    (∀ c, st.courier = some c → c.status = .available →
      (st.order = none ∨ ∃ o, st.order = some o ∧ o.status ≠ .created) →
      assignOrderToCourier st cid now = .error .orderNotFoundOrAssigned ∧
      AssignError.orderNotFoundOrAssigned.kind = .conflict) := by
  refine ⟨⟨?_, ?_⟩, ?_, ?_, ?_, ?_⟩
  · rintro ⟨st', hok⟩
    unfold assignOrderToCourier at hok
    cases hc : st.courier with
    | none => rw [hc] at hok; exact absurd hok (by simp)
    | some c =>
      rw [hc] at hok
      dsimp only at hok
      split_ifs at hok with h1
      cases ho : st.order with
      | none => rw [ho] at hok; exact absurd hok (by simp)
      | some o =>
        rw [ho] at hok
        dsimp only at hok
        split_ifs at hok with h2
        exact ⟨⟨c, rfl, not_ne_iff.mp h1⟩, ⟨o, rfl, not_ne_iff.mp h2⟩⟩
  · rintro ⟨⟨c, hc, hcs⟩, ⟨o, ho, hos⟩⟩
    refine ⟨{ order := some { o with
                              courierId := some cid
                              status := .accepted
                              updatedAt := now },
              courier := some { c with status := .busy, updatedAt := now } }, ?_⟩
    unfold assignOrderToCourier
    rw [hc, ho]
    dsimp only
    rw [if_neg (by simp [hcs]), if_neg (by simp [hos]), if_neg (by simp [hcs])]
  · intro c o hc hcs ho hos
    unfold assignOrderToCourier
    rw [hc, ho]
    dsimp only
    rw [if_neg (by simp [hcs]), if_neg (by simp [hos]), if_neg (by simp [hcs])]
  · intro hc
    unfold assignOrderToCourier
    rw [hc]
    exact ⟨rfl, rfl⟩
  · intro c hc hcs
    unfold assignOrderToCourier
    rw [hc]
    dsimp only
    rw [if_pos hcs]
    exact ⟨rfl, rfl⟩
  · intro c hc hcs hord
    unfold assignOrderToCourier
    rw [hc]
    dsimp only
    rw [if_neg (by simp [hcs])]
    rcases hord with ho | ⟨o, ho, hos⟩
    · rw [ho]
      exact ⟨rfl, rfl⟩
    · rw [ho]
      dsimp only
      rw [if_pos hos]
      exact ⟨rfl, rfl⟩

theorem assignOrderToCourier_spec_witness :
    assignOrderToCourier
      { order := some (initialOrderRow 0),
        courier := some { status := .available, currentLat := none, currentLon := none,
                          rating := 0, updatedAt := 0, lastSeenAt := none } } 7 5 =
      .ok { order := some { status := .accepted, courierId := some 7, deliveredAt := none,
                            updatedAt := 5 },
            courier := some { status := .busy, currentLat := none, currentLon := none,
                              rating := 0, updatedAt := 5, lastSeenAt := none } } :=
  (assignOrderToCourier_spec
    { order := some (initialOrderRow 0),
      courier := some { status := .available, currentLat := none, currentLon := none,
                        rating := 0, updatedAt := 0, lastSeenAt := none } } 7 5).2.1
    _ _ rfl rfl rfl rfl

/-! ## Claim C6: scoring and best-pick -/

theorem find?_cons_pos {α : Type} (p : α → Bool) (a : α) (l : List α) (h : p a = true) :
    (a :: l).find? p = some a :=
  List.find?_cons_of_pos l h

theorem find?_cons_neg {α : Type} (p : α → Bool) (a : α) (l : List α) (h : p a = false) :
    (a :: l).find? p = l.find? p :=
  List.find?_cons_of_neg l (by simp [h])

theorem find?_agree {α : Type} (p q : α → Bool) :
    ∀ l : List α, (∀ x ∈ l, p x = q x) → l.find? p = l.find? q := by
  intro l
  induction l with
  | nil => intro _; rfl
  | cons a t ih =>
    intro h
    have ha := h a (by simp)
    cases hq : q a with
    | true =>
      rw [find?_cons_pos p a t (ha.trans hq), find?_cons_pos q a t hq]
    | false =>
      rw [find?_cons_neg p a t (ha.trans hq), find?_cons_neg q a t hq,
        ih (fun x hx => h x (by simp [hx]))]

set_option maxHeartbeats 1600000 in
theorem pickBest_eq_firstMax (b : CourierScore) (l : List CourierScore) :
    firstMaxScore (b :: l) = some (pickBest b l) := by
  induction l generalizing b with
  | nil =>
    unfold firstMaxScore pickBest
    exact find?_cons_pos _ b [] (by simp)
  | cons s rest ih =>
    unfold pickBest firstMaxScore
    by_cases hgt : s.totalScore > b.totalScore
    · rw [if_pos hgt]
      have hb : ((b :: s :: rest).all (fun t => t.totalScore ≤ b.totalScore)) = false := by
        rw [Bool.eq_false_iff]
        intro hall
        rw [List.all_eq_true] at hall
        have hs := hall s (by simp)
        simp only [decide_eq_true_eq] at hs
        linarith
      rw [find?_cons_neg
        (fun x => (b :: s :: rest).all (fun t => t.totalScore ≤ x.totalScore))
        b (s :: rest) hb]
      have hagree : ∀ x ∈ s :: rest,
          ((b :: s :: rest).all (fun t => t.totalScore ≤ x.totalScore)) =
          ((s :: rest).all (fun t => t.totalScore ≤ x.totalScore)) := by
        intro x hx
        rw [Bool.eq_iff_iff]
        simp only [List.all_eq_true, decide_eq_true_eq, List.mem_cons]
        constructor
        · intro h t ht
          exact h t (Or.inr ht)
        · intro h t ht
          rcases ht with rfl | ht
          · have hs := h s (Or.inl rfl)
            linarith
          · exact h t ht
      rw [find?_agree _ _ (s :: rest) hagree]
      exact ih s
    · rw [if_neg hgt]
      have hsb : s.totalScore ≤ b.totalScore := not_lt.mp hgt
      by_cases hPb : ((b :: rest).all (fun t => t.totalScore ≤ b.totalScore)) = true
      · have hPb2 : ((b :: s :: rest).all (fun t => t.totalScore ≤ b.totalScore)) = true := by
          rw [List.all_eq_true] at hPb ⊢
          intro t ht
          simp only [List.mem_cons] at ht
          rcases ht with rfl | rfl | ht
          · simp
          · simpa using hsb
          · exact hPb t (by simp [ht])
        rw [find?_cons_pos
          (fun x => (b :: s :: rest).all (fun t => t.totalScore ≤ x.totalScore))
          b (s :: rest) hPb2]
        have h2 := ih b
        unfold firstMaxScore at h2
        rw [find?_cons_pos
          (fun x => (b :: rest).all (fun t => t.totalScore ≤ x.totalScore))
          b rest hPb] at h2
        exact h2
      · have hPbf : ((b :: s :: rest).all (fun t => t.totalScore ≤ b.totalScore)) = false := by
          rw [Bool.eq_false_iff]
          intro hall
          apply hPb
          rw [List.all_eq_true] at hall ⊢
          intro t ht
          simp only [List.mem_cons] at ht
          rcases ht with rfl | ht
          · exact hall t (by simp)
          · exact hall t (by simp [ht])
        have hPsf : ((b :: s :: rest).all (fun t => t.totalScore ≤ s.totalScore)) = false := by
          rw [Bool.eq_false_iff]
          intro hall
          rw [List.all_eq_true] at hall
          have hbs : b.totalScore ≤ s.totalScore := by
            simpa using hall b (by simp)
          have heq : s.totalScore = b.totalScore := le_antisymm hsb hbs
          apply hPb
          rw [List.all_eq_true]
          intro t ht
          simp only [List.mem_cons] at ht
          rcases ht with rfl | ht
          · simp
          · have h3 := hall t (by simp [ht])
            simp only [decide_eq_true_eq] at h3 ⊢
            linarith
        rw [find?_cons_neg
          (fun x => (b :: s :: rest).all (fun t => t.totalScore ≤ x.totalScore))
          b (s :: rest) hPbf]
        rw [find?_cons_neg
          (fun x => (b :: s :: rest).all (fun t => t.totalScore ≤ x.totalScore))
          s rest hPsf]
        have hagree2 : ∀ x ∈ rest,
            ((b :: s :: rest).all (fun t => t.totalScore ≤ x.totalScore)) =
            ((b :: rest).all (fun t => t.totalScore ≤ x.totalScore)) := by
          intro x hx
          rw [Bool.eq_iff_iff]
          simp only [List.all_eq_true, decide_eq_true_eq, List.mem_cons]
          constructor
          · intro h t ht
            rcases ht with rfl | ht
            · exact h t (Or.inl rfl)
            · exact h t (Or.inr (Or.inr ht))
          · intro h t ht
            rcases ht with rfl | rfl | ht
            · exact h t (Or.inl rfl)
            · have hb2 := h b (Or.inl rfl)
              linarith
            · exact h t (Or.inr ht)
        rw [find?_agree _ _ rest hagree2]
        have h2 := ih b
        unfold firstMaxScore at h2
        have hPbf2 : ((b :: rest).all (fun t => t.totalScore ≤ b.totalScore)) = false :=
          Bool.eq_false_iff.mpr hPb
        rw [find?_cons_neg
          (fun x => (b :: rest).all (fun t => t.totalScore ≤ x.totalScore))
          b rest hPbf2] at h2
        exact h2

/-- C6: for every candidate with known location, the computed sub-scores are
`DistanceScore = max(0, 1 − d/50)`, `RatingScore = rating/5`,
`WorkloadScore = max(0, 1 − active/5)` with a failed active-orders count
treated as 0, the total is the 0.40/0.30/0.30 weighted sum, and the
selection stage of `AutoAssignCourier` returns the first candidate (in input
order) whose total score is greatest — a strictly greater score is required
to displace the current best, so ties keep the earlier candidate. -/
theorem courier_scoring_spec :
    (∀ c : Candidate,
      (calculateCourierScore c DefaultWeights).distanceScore =
        max 0 (1 - c.distanceKm / 50) ∧
      (calculateCourierScore c DefaultWeights).ratingScore = c.rating / 5 ∧
      (calculateCourierScore c DefaultWeights).workloadScore =
        max 0 (1 - (getActiveCourierOrders c.activeOrdersQuery : ℚ) / 5) ∧
      (c.activeOrdersQuery = none →
        calculateCourierScore c DefaultWeights =
          calculateCourierScore { c with activeOrdersQuery := some 0 } DefaultWeights) ∧
      (calculateCourierScore c DefaultWeights).totalScore =
        40 / 100 * (calculateCourierScore c DefaultWeights).distanceScore +
        30 / 100 * (calculateCourierScore c DefaultWeights).ratingScore +
        30 / 100 * (calculateCourierScore c DefaultWeights).workloadScore) ∧
    (∀ cands : List Candidate,
      autoAssignSelect cands =
        firstMaxScore (cands.map (calculateCourierScore · DefaultWeights))) := by
  constructor
  · intro c
    refine ⟨?_, rfl, ?_, ?_, ?_⟩
    · show (if c.distanceKm > 50 then (0 : ℚ) else 1 - c.distanceKm / 50) = _
      rcases lt_or_le (50 : ℚ) c.distanceKm with h | h
      · rw [if_pos h, eq_comm, max_eq_left]
        have h50 : (1 : ℚ) < c.distanceKm / 50 := by
          rw [lt_div_iff (by norm_num)]
          linarith
        linarith
      · rw [if_neg (not_lt.mpr h), eq_comm, max_eq_right]
        have h50 : c.distanceKm / 50 ≤ 1 := by
          rw [div_le_one (by norm_num)]
          exact h
        linarith
    · show (if ((getActiveCourierOrders c.activeOrdersQuery : ℚ)) ≥ 5 then (0 : ℚ)
        else 1 - (getActiveCourierOrders c.activeOrdersQuery : ℚ) / 5) = _
      set a : ℚ := (getActiveCourierOrders c.activeOrdersQuery : ℚ)
      rcases le_or_lt 5 a with h | h
      · rw [if_pos h, eq_comm, max_eq_left]
        have h5 : (1 : ℚ) ≤ a / 5 := by
          rw [le_div_iff (by norm_num)]
          linarith
        linarith
      · rw [if_neg (not_le.mpr h), eq_comm, max_eq_right]
        have h5 : a / 5 ≤ 1 := by
          rw [div_le_one (by norm_num)]
          linarith
        linarith
    · intro hnone
      simp [calculateCourierScore, getActiveCourierOrders, hnone]
    · dsimp only [calculateCourierScore, DefaultWeights]
      ring
  · intro cands
    cases hmap : cands.map (calculateCourierScore · DefaultWeights) with
    | nil =>
      unfold autoAssignSelect
      rw [hmap]
      rfl
    | cons s rest =>
      unfold autoAssignSelect
      rw [hmap]
      exact (pickBest_eq_firstMax s rest).symm

theorem courier_scoring_spec_witness :
    calculateCourierScore
        { id := 1, name := "a", rating := 5, distanceKm := 0, activeOrdersQuery := none }
        DefaultWeights =
      calculateCourierScore
        { id := 1, name := "a", rating := 5, distanceKm := 0, activeOrdersQuery := some 0 }
        DefaultWeights :=
  ((courier_scoring_spec.1
    { id := 1, name := "a", rating := 5, distanceKm := 0,
      activeOrdersQuery := none }).2.2.2.1) rfl

/-! ## Claim C7: delivered_at lifecycle -/

theorem isValid_from_delivered {dst : OrderStatus}
    (h : isValidOrderStatusTransition .delivered dst = true) : dst = .delivered := by
  cases dst <;> simp_all [isValidOrderStatusTransition]

theorem orderStep_inv (r : OrderRow) (i : UpdateOrderStatusRequest × ℤ)
    (h : r.deliveredAt.isSome = true ↔ r.status = .delivered) :
    ((orderStep r i).deliveredAt.isSome = true ↔ (orderStep r i).status = .delivered) := by
  unfold orderStep updateOrderStatus
  by_cases hv : isValidOrderStatusTransition r.status i.1.status = true
  · rw [if_neg (not_not_intro hv)]
    by_cases h2 : i.1.courierId = some 0
    · rw [if_pos h2]
      exact h
    · rw [if_neg h2]
      dsimp only
      by_cases hd : i.1.status = .delivered
      · rw [if_pos hd]
        by_cases hboth : r.status = .delivered ∧ r.deliveredAt.isSome = true
        · rw [if_pos hboth]
          simp [hboth.2, hd]
        · rw [if_neg hboth]
          simp [hd]
      · rw [if_neg hd]
        simp [hd]
  · rw [if_pos hv]
    exact h

theorem orderStep_delivered (r : OrderRow) (i : UpdateOrderStatusRequest × ℤ)
    (hs : r.status = .delivered) (hd : r.deliveredAt.isSome = true) :
    (orderStep r i).status = .delivered ∧ (orderStep r i).deliveredAt = r.deliveredAt := by
  unfold orderStep updateOrderStatus
  by_cases hv : isValidOrderStatusTransition r.status i.1.status = true
  · rw [if_neg (not_not_intro hv)]
    rw [hs] at hv
    have hreq : i.1.status = .delivered := isValid_from_delivered hv
    by_cases h2 : i.1.courierId = some 0
    · rw [if_pos h2]
      exact ⟨hs, rfl⟩
    · rw [if_neg h2]
      dsimp only
      rw [if_pos hreq, if_pos ⟨hs, hd⟩]
      exact ⟨hreq, rfl⟩
  · rw [if_pos hv]
    exact ⟨hs, rfl⟩

theorem runOrderUpdates_delivered (l : List (UpdateOrderStatusRequest × ℤ)) :
    ∀ r : OrderRow, r.status = .delivered → r.deliveredAt.isSome = true →
      (runOrderUpdates r l).status = .delivered ∧
      (runOrderUpdates r l).deliveredAt = r.deliveredAt := by
  induction l with
  | nil => intro r hs hd; exact ⟨hs, rfl⟩
  | cons i rest ih =>
    intro r hs hd
    have hstep := orderStep_delivered r i hs hd
    have hd2 : (orderStep r i).deliveredAt.isSome = true := by
      rw [hstep.2]
      exact hd
    have := ih (orderStep r i) hstep.1 hd2
    unfold runOrderUpdates at this ⊢
    rw [List.foldl_cons]
    exact ⟨this.1, this.2.trans hstep.2⟩

theorem runOrderUpdates_inv (l : List (UpdateOrderStatusRequest × ℤ)) :
    ∀ r : OrderRow, (r.deliveredAt.isSome = true ↔ r.status = .delivered) →
      ((runOrderUpdates r l).deliveredAt.isSome = true ↔
        (runOrderUpdates r l).status = .delivered) := by
  induction l with
  | nil => intro r h; exact h
  | cons i rest ih =>
    intro r h
    unfold runOrderUpdates
    rw [List.foldl_cons]
    exact ih (orderStep r i) (orderStep_inv r i h)

theorem runOrderUpdates_mem_trace (l : List (UpdateOrderStatusRequest × ℤ)) :
    ∀ r : OrderRow, runOrderUpdates r l ∈ orderTrace r l := by
  induction l with
  | nil =>
    intro r
    unfold runOrderUpdates orderTrace
    simp
  | cons i rest ih =>
    intro r
    unfold runOrderUpdates orderTrace
    rw [List.foldl_cons]
    exact List.mem_cons_of_mem _ (ih (orderStep r i))

theorem runOrderUpdates_delivered_iff_trace (l : List (UpdateOrderStatusRequest × ℤ)) :
    ∀ r : OrderRow, (r.deliveredAt.isSome = true ↔ r.status = .delivered) →
      ((runOrderUpdates r l).status = .delivered ↔
        ∃ x ∈ orderTrace r l, x.status = .delivered) := by
  induction l with
  | nil =>
    intro r _
    unfold runOrderUpdates orderTrace
    simp
  | cons i rest ih =>
    intro r h
    constructor
    · intro hfin
      exact ⟨runOrderUpdates r (i :: rest), runOrderUpdates_mem_trace (i :: rest) r, hfin⟩
    · rintro ⟨x, hx, hxd⟩
      unfold orderTrace at hx
      simp only [List.mem_cons] at hx
      rcases hx with rfl | hx
      · have hd : x.deliveredAt.isSome = true := h.mpr hxd
        exact (runOrderUpdates_delivered (i :: rest) x hxd hd).1
      · have hrec := (ih (orderStep r i) (orderStep_inv r i h)).mpr ⟨x, hx, hxd⟩
        unfold runOrderUpdates at hrec ⊢
        rw [List.foldl_cons]
        exact hrec

/-- C7: a successful `UpdateOrderStatus` writes `delivered_at = now` exactly
when the order moves into `delivered` from elsewhere (or had no stored
timestamp), preserves the stored value on the idempotent
`delivered → delivered` self-loop, a delivered order stays delivered with an
unchanged timestamp under any further updates, and over every sequence of
updates from a freshly created order, `delivered_at` is non-null iff some
state of the order's history was `delivered`. -/
theorem delivered_at_spec :
    (∀ (row : OrderRow) (req : UpdateOrderStatusRequest) (now : ℤ) (out : OrderRow),
      updateOrderStatus row req now = .ok out →
      ((req.status = .delivered ∧
          ¬ (row.status = .delivered ∧ row.deliveredAt.isSome = true)) →
        out.deliveredAt = some now) ∧
      ((req.status = .delivered ∧ row.status = .delivered ∧
          row.deliveredAt.isSome = true) →
        out.deliveredAt = row.deliveredAt) ∧
      (req.status ≠ .delivered → out.deliveredAt = none)) ∧
    (∀ (r : OrderRow) (l : List (UpdateOrderStatusRequest × ℤ)),
      r.status = .delivered → r.deliveredAt.isSome = true →
      (runOrderUpdates r l).status = .delivered ∧
      (runOrderUpdates r l).deliveredAt = r.deliveredAt) ∧
    (∀ (t0 : ℤ) (l : List (UpdateOrderStatusRequest × ℤ)),
      (runOrderUpdates (initialOrderRow t0) l).deliveredAt.isSome = true ↔
        ∃ x ∈ orderTrace (initialOrderRow t0) l, x.status = .delivered) := by
  refine ⟨?_, ?_, ?_⟩
  · intro row req now out hok
    unfold updateOrderStatus at hok
    by_cases hv : isValidOrderStatusTransition row.status req.status = true
    · rw [if_neg (not_not_intro hv)] at hok
      by_cases h2 : req.courierId = some 0
      · rw [if_pos h2] at hok
        cases hok
      · rw [if_neg h2] at hok
        dsimp only at hok
        have hout := (Except.ok.inj hok).symm
        subst hout
        refine ⟨?_, ?_, ?_⟩
        · rintro ⟨hd, hnot⟩
          dsimp only
          rw [if_pos hd, if_neg hnot]
        · rintro ⟨hd, hboth⟩
          dsimp only
          rw [if_pos hd, if_pos hboth]
        · intro hnd
          dsimp only
          rw [if_neg hnd]
    · rw [if_pos hv] at hok
      cases hok
  · intro r l hs hd
    exact runOrderUpdates_delivered l r hs hd
  · intro t0 l
    have hinv0 : ((initialOrderRow t0).deliveredAt.isSome = true ↔
        (initialOrderRow t0).status = .delivered) := by
      simp [initialOrderRow]
    exact (runOrderUpdates_inv l (initialOrderRow t0) hinv0).trans
      (runOrderUpdates_delivered_iff_trace l (initialOrderRow t0) hinv0)

theorem delivered_at_spec_witness :
    updateOrderStatus
        { status := .inDelivery, courierId := some 1, deliveredAt := none, updatedAt := 0 }
        { status := .delivered, courierId := none } 9 =
      .ok { status := .delivered, courierId := some 1, deliveredAt := some 9,
            updatedAt := 9 } ∧
    (some 9 : Option ℤ) = some 9 := by
  have hok : updateOrderStatus
      { status := .inDelivery, courierId := some 1, deliveredAt := none, updatedAt := 0 }
      { status := .delivered, courierId := none } 9 =
      .ok { status := .delivered, courierId := some 1, deliveredAt := some 9,
            updatedAt := 9 } := by rfl
  refine ⟨hok, ?_⟩
  have h := (delivered_at_spec.1
    { status := .inDelivery, courierId := some 1, deliveredAt := none, updatedAt := 0 }
    { status := .delivered, courierId := none } 9
    { status := .delivered, courierId := some 1, deliveredAt := some 9, updatedAt := 9 }
    hok).1 ⟨rfl, by decide⟩
  simpa using h

/-! ## Claim C8: courier rating aggregate -/

theorem round2_intCast (n : ℤ) : round2 ((n : ℚ)) = (n : ℚ) := by
  have h := round2_twoDecInt (100 * n)
  have he : ((100 * n : ℤ) : ℚ) / 100 = (n : ℚ) := by
    push_cast
    ring
  rw [he] at h
  exact h

theorem applyReviews_total (l : List ℤ) :
    ∀ c : CourierAgg, (applyReviews c l).totalReviews = c.totalReviews + l.length := by
  induction l with
  | nil =>
    intro c
    simp [applyReviews]
  | cons x rest ih =>
    intro c
    unfold applyReviews at ih ⊢
    rw [List.foldl_cons, ih]
    unfold updateCourierRatingOnReview
    dsimp only
    simp only [List.length_cons]
    push_cast
    ring

/-- C8 counterexample: the claim says the stored `Rating` always equals
`round2(mean of the courier's review ratings)`.  The trigger instead folds
the rounded recurrence, which drifts: inserting ratings 1,1,1,1,1,2,1 yields
stored rating 1.15 while `round2(8/7) = 1.14`. -/
theorem courier_rating_drifts :
    applyReviews initialCourierAgg [1, 1, 1, 1, 1, 2, 1] =
      { rating := 23 / 20, totalReviews := 7 } ∧
    round2 ((((1 : ℤ) + 1 + 1 + 1 + 1 + 2 + 1 : ℤ) : ℚ) / 7) = 57 / 50 ∧
    (23 / 20 : ℚ) ≠ 57 / 50 := by
  refine ⟨?_, ?_, by norm_num⟩
  · norm_num [applyReviews, updateCourierRatingOnReview, initialCourierAgg, round2, goRound]
  · norm_num [round2, goRound]

/-- C8 (amended): every insertion applies the trigger's recurrence
`new_total = total_reviews + 1`,
`new_rating = round2((rating × total_reviews + x) / new_total)` atomically,
so `TotalReviews` equals the number of inserted review rows and `Rating`
equals the fold of that recurrence over the insertion sequence; the folded
value equals `round2(mean)` for the first two insertions but may drift from
it afterwards by accumulated rounding. -/
theorem courier_rating_spec :
    (∀ (c : CourierAgg) (x : ℤ),
      updateCourierRatingOnReview c x =
        { rating := round2 ((c.rating * (c.totalReviews : ℚ) + (x : ℚ)) /
            ((c.totalReviews + 1 : ℤ) : ℚ)),
          totalReviews := c.totalReviews + 1 }) ∧
    (∀ l : List ℤ, (applyReviews initialCourierAgg l).totalReviews = l.length) ∧
    (∀ x : ℤ, (applyReviews initialCourierAgg [x]).rating = round2 ((x : ℚ) / 1)) ∧
    (∀ x y : ℤ, (applyReviews initialCourierAgg [x, y]).rating =
      round2 (((x : ℚ) + (y : ℚ)) / 2)) := by
  refine ⟨fun c x => rfl, ?_, ?_, ?_⟩
  · intro l
    rw [applyReviews_total l initialCourierAgg]
    simp [initialCourierAgg]
  · intro x
    show (updateCourierRatingOnReview initialCourierAgg x).rating = _
    unfold updateCourierRatingOnReview initialCourierAgg
    dsimp only
    congr 1
    push_cast
    ring
  · intro x y
    show (updateCourierRatingOnReview
      (updateCourierRatingOnReview initialCourierAgg x) y).rating = _
    unfold updateCourierRatingOnReview initialCourierAgg
    dsimp only
    have hx : round2 ((0 * ((0 : ℤ) : ℚ) + (x : ℚ)) / (((0 : ℤ) + 1 : ℤ) : ℚ)) = (x : ℚ) := by
      rw [show ((0 : ℚ) * ((0 : ℤ) : ℚ) + (x : ℚ)) / (((0 : ℤ) + 1 : ℤ) : ℚ) = (x : ℚ) by
        push_cast
        ring]
      exact round2_intCast x
    rw [hx]
    congr 1
    push_cast
    ring

/-! ## Claim C9: rate limiter Allow -/

/-- C9: when enabled, `Allow` increments the counter, allows iff the
post-increment count is within the limit, returns
`remaining = max(0, limit − count)`, calls `EXPIRE` exactly on the first
touch of the window, and neither an `EXPIRE` failure nor a TTL-read failure
changes the decision (`ttlRead = none` models a failed TTL read — only
`reset_at` falls back to `now + window`); when disabled, `Allow` allows
unconditionally with `remaining = limit` and no store access. -/
theorem rateLimiter_allow_spec (r : RateLimiter) (count now : ℤ) (ttlRead : Option ℤ) :
    (r.enabled = true →
      (r.Allow count now ttlRead).countAfter = count + 1 ∧
      ((r.Allow count now ttlRead).allowed = true ↔ count + 1 ≤ r.limit) ∧
      (r.Allow count now ttlRead).remaining = max 0 (r.limit - (count + 1)) ∧
      ((r.Allow count now ttlRead).expireCalled = true ↔ count + 1 = 1) ∧
      (∀ t t' : Option ℤ,
        (r.Allow count now t).allowed = (r.Allow count now t').allowed ∧
        (r.Allow count now t).remaining = (r.Allow count now t').remaining ∧
        (r.Allow count now t).countAfter = (r.Allow count now t').countAfter) ∧
      (ttlRead = none → (r.Allow count now ttlRead).resetAt = now + r.window)) ∧
    (r.enabled = false →
      r.Allow count now ttlRead =
        { allowed := true, remaining := r.limit, resetAt := now + r.window,
          countAfter := count, expireCalled := false }) := by
  constructor
  · intro hen
    have hne : ¬ r.enabled = false := by simp [hen]
    unfold RateLimiter.Allow
    simp only [if_neg hne]
    refine ⟨by trivial, by simp, ?_, by simp, fun t t' => ⟨by trivial, by trivial, by trivial⟩, ?_⟩
    · rcases lt_or_le (r.limit - (count + 1)) 0 with h | h
      · rw [if_pos h, eq_comm, max_eq_left (le_of_lt h)]
      · rw [if_neg (not_lt.mpr h), eq_comm, max_eq_right h]
    · intro hnone
      rw [hnone]
  · intro hdis
    unfold RateLimiter.Allow
    rw [if_pos hdis]

theorem rateLimiter_allow_spec_witness :
    ({ enabled := true, limit := 2, window := 60 } : RateLimiter).Allow 0 100 none =
      { allowed := true, remaining := 1, resetAt := 160, countAfter := 1,
        expireCalled := true } ∧
    (({ enabled := true, limit := 2, window := 60 } : RateLimiter).Allow 0 100 none).allowed
      = true := by
  refine ⟨by rfl, ?_⟩
  exact (rateLimiter_allow_spec { enabled := true, limit := 2, window := 60 }
    0 100 none).1 rfl |>.2.1.mpr (by decide)

/-! ## Claim C10: courier status report overwrites the stored location -/

/-- C10: `UpdateCourierStatus` always overwrites the stored coordinates with
the request's (possibly absent) coordinates and stamps `updated_at` and
`last_seen_at`; a request without coordinates therefore clears the stored
location, after which the courier fails `AutoAssignCourier`'s known-location
filter and is dropped from every candidate list. -/
theorem updateCourierStatus_spec (row : CourierRow) (req : UpdateCourierStatusRequest)
    (now : ℤ) :
    ∃ out, updateCourierStatus (some row) req now = .ok out ∧
      out.status = req.status ∧
      out.currentLat = req.currentLat ∧
      out.currentLon = req.currentLon ∧
      out.updatedAt = now ∧
      out.lastSeenAt = some now ∧
      ((req.currentLat = none ∨ req.currentLon = none) →
        hasKnownLocation out = false ∧
        ∀ l : List CourierRow, couriersWithLocation (out :: l) = couriersWithLocation l) := by
  refine ⟨_, rfl, rfl, rfl, rfl, rfl, rfl, ?_⟩
  intro hmiss
  have hloc : hasKnownLocation
      { row with
        status := req.status
        currentLat := req.currentLat
        currentLon := req.currentLon
        updatedAt := now
        lastSeenAt := some now } = false := by
    unfold hasKnownLocation
    dsimp only
    rcases hmiss with h | h
    · rw [h]
      rfl
    · rw [h]
      simp
  refine ⟨hloc, ?_⟩
  intro l
  unfold couriersWithLocation
  rw [List.filter_cons]
  rw [hloc]
  simp

theorem updateCourierStatus_spec_witness :
    hasKnownLocation
      { status := CourierStatus.available, currentLat := none, currentLon := none,
        rating := 5, updatedAt := 3, lastSeenAt := some 3 } = false := by
  obtain ⟨out, hok, _, hlat, hlon, hup, hseen, hfilter⟩ :=
    updateCourierStatus_spec
      { status := .busy, currentLat := some 55, currentLon := some 37, rating := 5,
        updatedAt := 0, lastSeenAt := none }
      { status := .available, currentLat := none, currentLon := none } 3
  have hout : out =
      { status := CourierStatus.available, currentLat := none, currentLon := none,
        rating := 5, updatedAt := 3, lastSeenAt := some 3 } := by
    cases Except.ok.inj hok
    rfl
  rw [← hout]
  exact (hfilter (Or.inl rfl)).1

end Delivery
